import Mathlib

/-!
A shallow embedding of the forktrace `Tracer` component (src/src/tracer/tracer.hpp).
The repository ships only the header: the data declarations (`Tracee`, the
registry/queue/record members of `Tracer`, `BlockingCall`'s interface) are taken
from the header, while the bodies of `step`, `collect_orphans`, the event
handlers, `notify_orphan` and `nuke` live in the missing `tracer.cpp` and are
modelled from the spec, as marked on each definition.
-/

namespace Forktrace

/-- Modelled from the spec: `system.hpp` is not among the sources; `SYSCALL_NONE`
is the sentinel value meaning "not currently in a system call". Its concrete
value is immaterial to the model. -/
def SYSCALL_NONE : Int := -1

/-- `Tracee::State` from tracer.hpp (RUNNING, STOPPED, DEAD). -/
inductive Tracee.State
  | RUNNING
  | STOPPED
  | DEAD
deriving DecidableEq

/-- Modelled from the spec: the bodies of `BlockingCall` subclasses are in the
missing `tracer.cpp`; per the design notes a blocking call is represented as
data carrying the syscall it belongs to. Only its presence/absence matters to
the claims. -/
structure BlockingCall where
  sysno : Int
deriving DecidableEq

/-- The `Tracee` book-keeping record from tracer.hpp. `process` is a handle to
the externally-owned `Process` fork-tree node (modelled as a node id);
`blockingCall` is the at-most-one in-flight blocking call (`unique_ptr`,
modelled as an `Option`). -/
structure Tracee where
  pid : Int
  state : Tracee.State
  syscall : Int
  signal : Int
  process : Option Nat
  blockingCall : Option BlockingCall
deriving DecidableEq

/-- The `Tracee(pid_t, std::shared_ptr<Process>)` constructor from tracer.hpp:
a tracee started in the stopped state. -/
def Tracee.make (pid : Int) (process : Nat) : Tracee :=
  { pid := pid, state := Tracee.State.STOPPED, syscall := SYSCALL_NONE,
    signal := 0, process := some process, blockingCall := none }

/-- The `Tracee()` default constructor from tracer.hpp (needed for
`unordered_map<>::operator[]`): pid −1, state RUNNING, no syscall, no signal,
null `process` and `blockingCall`. -/
def Tracee.default : Tracee :=
  { pid := -1, state := Tracee.State.RUNNING, syscall := SYSCALL_NONE,
    signal := 0, process := none, blockingCall := none }

/-- The `Leader` record from tracer.hpp: tracks whether the initial exec has
succeeded yet. -/
structure Leader where
  execed : Bool
deriving DecidableEq

/-- `BadTraceError` from tracer.hpp: carries the offending pid and a message. -/
structure BadTraceError where
  pid : Int
  message : String
deriving DecidableEq

/-- Registry lookup over the association list modelling
`unordered_map<pid_t, Tracee>` (first entry with the given key). -/
def lookupT : List (Int × Tracee) → Int → Option Tracee
  | [], _ => none
  | (q, t) :: rest, p => if q = p then some t else lookupT rest p

/-- Update every entry with the given key (the registry never holds duplicate
keys, so this is the single-entry update of `unordered_map`). -/
def updateT : List (Int × Tracee) → Int → Tracee → List (Int × Tracee)
  | [], _, _ => []
  | (q, u) :: rest, p, t =>
      if q = p then (p, t) :: updateT rest p t else (q, u) :: updateT rest p t

/-- Erase the entry with the given key (`unordered_map::erase`). -/
def eraseT : List (Int × Tracee) → Int → List (Int × Tracee)
  | [], _ => []
  | (q, u) :: rest, p =>
      if q = p then eraseT rest p else (q, u) :: eraseT rest p

/-- Linear membership test on a pid list (`std::vector` scan). -/
def containsPid : List Int → Int → Bool
  | [], _ => false
  | q :: rest, p => if q = p then true else containsPid rest p

/-- `std::unordered_map<pid_t, Tracee>::operator[]`: returns the entry for the
key, default-constructing (and inserting) a `Tracee` when the key is absent.
Modelled from the C++ standard-library semantics the header relies on. -/
def registryIndex (m : List (Int × Tracee)) (p : Int) : Tracee × List (Int × Tracee) :=
  match lookupT m p with
  | some t => (t, m)
  | none => (Tracee.default, m ++ [(p, Tracee.default)])

/-- The `Tracer`'s mutable state, from the private members of tracer.hpp:
`_tracees` (registry), `_orphans` (FIFO queue), `_leaders`, `_recycledPIDs`,
plus the externally-owned `Process` fork-tree collaborator modelled as:
the set of created node ids (`processNodes`, with `nextNode` the fresh-id
counter), the nodes marked orphaned (`orphanedNodes`) and the recorded
failed-fork updates (`failedForks`, by parent pid). -/
structure TracerState where
  tracees : List (Int × Tracee)
  orphans : List Int
  leaders : List (Int × Leader)
  recycledPIDs : List Int
  processNodes : List Nat
  orphanedNodes : List Nat
  failedForks : List Int
  nextNode : Nat
deriving DecidableEq

/-- Modelled from the spec: the outcome a `BlockingCall::prepare`/`finalise`
body observes while doing its work in the missing `tracer.cpp` — the operation
went through, the tracee died during it, or some other unexpected condition
arose. -/
inductive CallOutcome
  | completed
  | traceeDied
  | failed (message : String)
deriving DecidableEq

/-- Modelled from the spec: `BlockingCall::prepare` (body in the missing
`tracer.cpp`): returns `false` exactly when the tracee died while preparing
the call (reaping is then left to the caller), and throws — modelled as
`Except.error` — on any other unexpected condition. -/
def BlockingCall.prepare (outcome : CallOutcome) (pid : Int) : Except BadTraceError Bool :=
  match outcome with
  | CallOutcome.completed => Except.ok true
  | CallOutcome.traceeDied => Except.ok false
  | CallOutcome.failed m => Except.error { pid := pid, message := m }

/-- Modelled from the spec: `BlockingCall::finalise` (body in the missing
`tracer.cpp`): same `false`/throw contract as `prepare`. -/
def BlockingCall.finalise (outcome : CallOutcome) (pid : Int) : Except BadTraceError Bool :=
  match outcome with
  | CallOutcome.completed => Except.ok true
  | CallOutcome.traceeDied => Except.ok false
  | CallOutcome.failed m => Except.error { pid := pid, message := m }

/-- Modelled from the spec: the wait/stop notifications `step()` decodes, per
§4.4 of the spec: syscall-entry (with whether the tracer tracks the syscall as
blocking, and the outcome its `prepare` observes), syscall-exit (with the
outcome `finalise` observes and which dead child the wait call reaped, if any),
fork, failed fork, exec, signal-delivery-stop (with whether the tracer
suppresses the signal), and death (whether it was expected via `expect_ended`
and whether another component still needs the entry). -/
inductive Event
  | syscallEntry (pid : Int) (sysno : Int) (blocking : Bool) (outcome : CallOutcome)
  | syscallExit (pid : Int) (outcome : CallOutcome) (reaped : Option Int)
  | fork (pid : Int) (child : Int)
  | failedFork (pid : Int)
  | exec (pid : Int)
  | signalStop (pid : Int) (sig : Int) (suppress : Bool)
  | death (pid : Int) (expected : Bool) (stillNeeded : Bool)
deriving DecidableEq

/-- The pid a notification is reported for. -/
def Event.pid : Event → Int
  | Event.syscallEntry p _ _ _ => p
  | Event.syscallExit p _ _ => p
  | Event.fork p _ => p
  | Event.failedFork p => p
  | Event.exec p => p
  | Event.signalStop p _ _ => p
  | Event.death p _ _ => p

/-- Modelled from the spec: `Tracer::add_tracee` (body in the missing
`tracer.cpp`): register a fresh tracee, created in the STOPPED state, attached
to the given `Process` node. -/
def add_tracee (s : TracerState) (pid : Int) (node : Nat) : TracerState :=
  { s with tracees := s.tracees ++ [(pid, Tracee.make pid node)] }

/-- Modelled from the spec: mark the `Process` subtree owned by a tracee as
orphaned (an effect on the externally-owned fork-tree node, not on the
tracee's own state). -/
def mark_orphaned (s : TracerState) (t : Tracee) : TracerState :=
  match t.process with
  | some n => { s with orphanedNodes := s.orphanedNodes ++ [n] }
  | none => s

/-- Modelled from the spec: `Tracer::handle_syscall_entry` (body in the missing
`tracer.cpp`), §4.4: the tracee stops; if the syscall is tracked as blocking
and a `BlockingCall` is already outstanding this is a `BadTraceError`;
otherwise the call is constructed and `prepare` is run — on `false` the tracee
is reaped silently, on success the syscall and the call are recorded. -/
def handle_syscall_entry (s : TracerState) (pid : Int) (t : Tracee) (sysno : Int)
    (blocking : Bool) (outcome : CallOutcome) : Except BadTraceError TracerState :=
  if blocking then
    match t.blockingCall with
    | some _ =>
        Except.error { pid := pid, message := "syscall-entry while a blocking call is already outstanding" }
    | none =>
        match BlockingCall.prepare outcome pid with
        | Except.error err => Except.error err
        | Except.ok false => Except.ok { s with tracees := eraseT s.tracees pid }
        | Except.ok true =>
            let t1 : Tracee :=
              { t with state := Tracee.State.STOPPED, syscall := sysno,
                       blockingCall := some { sysno := sysno } }
            Except.ok { s with tracees := updateT s.tracees pid t1 }
  else
    let t1 : Tracee := { t with state := Tracee.State.STOPPED, syscall := sysno }
    Except.ok { s with tracees := updateT s.tracees pid t1 }

/-- Modelled from the spec: the reap effect of a successful wait-style blocking
call — the dead child entry the call consumed (if any) is removed from the
registry once its death has been wait-reaped. -/
def reapIfDead (m : List (Int × Tracee)) : Option Int → List (Int × Tracee)
  | none => m
  | some r =>
      match lookupT m r with
      | some rt => if rt.state = Tracee.State.DEAD then eraseT m r else m
      | none => m

/-- Modelled from the spec: `Tracer::handle_syscall_exit` (body in the missing
`tracer.cpp`), §4.4: if a `BlockingCall` is outstanding, `finalise` it — on
`false` reap the tracee, on success apply the reap effect (`reapIfDead`) and
clear the call; a syscall-exit with no syscall in progress is a
`BadTraceError`; `syscall` is cleared. -/
def handle_syscall_exit (s : TracerState) (pid : Int) (t : Tracee)
    (outcome : CallOutcome) (reaped : Option Int) : Except BadTraceError TracerState :=
  match t.blockingCall with
  | some _ =>
      match BlockingCall.finalise outcome pid with
      | Except.error err => Except.error err
      | Except.ok false => Except.ok { s with tracees := eraseT s.tracees pid }
      | Except.ok true =>
          let t1 : Tracee :=
            { t with state := Tracee.State.STOPPED, syscall := SYSCALL_NONE,
                     blockingCall := none }
          Except.ok { s with tracees := updateT (reapIfDead s.tracees reaped) pid t1 }
  | none =>
      if t.syscall = SYSCALL_NONE then
        Except.error { pid := pid, message := "syscall-exit with no syscall in progress" }
      else
        let t1 : Tracee := { t with state := Tracee.State.STOPPED, syscall := SYSCALL_NONE }
        Except.ok { s with tracees := updateT s.tracees pid t1 }

/-- Modelled from the spec: `Tracer::handle_fork` (body in the missing
`tracer.cpp`), §4.4 and §4.3: the parent stops; a fresh `Process` subtree node
is created; a fork notification for a pid with a still-live entry is a
`BadTraceError`; a pid still present as a dead-but-unprocessed entry is
recycled (old pid appended to the recycled-PID record, old entry dropped);
then a new tracee for the child is registered in the STOPPED state. -/
def handle_fork (s : TracerState) (parent : Int) (t : Tracee)
    (child : Int) : Except BadTraceError TracerState :=
  match lookupT s.tracees child with
  | some ct =>
      if ct.state = Tracee.State.DEAD then
        let tp : Tracee := { t with state := Tracee.State.STOPPED }
        let s0 := { s with tracees := updateT s.tracees parent tp }
        let s1 := { s0 with processNodes := s0.processNodes ++ [s0.nextNode],
                            nextNode := s0.nextNode + 1,
                            recycledPIDs := s0.recycledPIDs ++ [child],
                            tracees := eraseT s0.tracees child }
        Except.ok (add_tracee s1 child s0.nextNode)
      else
        Except.error { pid := child, message := "fork notification for a pid with a live entry" }
  | none =>
      let tp : Tracee := { t with state := Tracee.State.STOPPED }
      let s0 := { s with tracees := updateT s.tracees parent tp }
      let s1 := { s0 with processNodes := s0.processNodes ++ [s0.nextNode],
                          nextNode := s0.nextNode + 1 }
      Except.ok (add_tracee s1 child s0.nextNode)

/-- Modelled from the spec: `Tracer::handle_failed_fork` (body in the missing
`tracer.cpp`), §4.4: a failed fork updates the parent's `Process` record
without creating a child tracee; the parent stops. -/
def handle_failed_fork (s : TracerState) (parent : Int) (t : Tracee) :
    Except BadTraceError TracerState :=
  let t1 : Tracee := { t with state := Tracee.State.STOPPED }
  Except.ok { s with tracees := updateT s.tracees parent t1,
                     failedForks := s.failedForks ++ [parent] }

/-- Modelled from the spec: `Tracer::handle_exec` (body in the missing
`tracer.cpp`), §4.4: update the recorded program image (an effect on the
external `Process` node) and set the `Leader`'s `execed` flag when the pid is
a leader; the tracee stops. -/
def handle_exec (s : TracerState) (pid : Int) (t : Tracee) :
    Except BadTraceError TracerState :=
  let t1 : Tracee := { t with state := Tracee.State.STOPPED }
  Except.ok { s with tracees := updateT s.tracees pid t1,
                     leaders := s.leaders.map (fun pl => if pl.1 = pid then (pid, { execed := true }) else pl) }

/-- Modelled from the spec: `Tracer::handle_signal_stop` (body in the missing
`tracer.cpp`), §4.4: record the pending signal for redelivery on next resume,
unless the tracer suppresses/consumes it; the tracee stops. -/
def handle_signal_stop (s : TracerState) (pid : Int) (t : Tracee) (sig : Int)
    (suppress : Bool) : Except BadTraceError TracerState :=
  let t1 : Tracee :=
    { t with state := Tracee.State.STOPPED, signal := if suppress then 0 else sig }
  Except.ok { s with tracees := updateT s.tracees pid t1 }

/-- Modelled from the spec: the death branch of the dispatcher (body in the
missing `tracer.cpp`), §4.4: transition to DEAD; while another component still
needs the entry it is retained (with no pending blocking call); once the death
is fully processed the entry is removed — immediately when it was expected,
and after the §4.3 orphan marking when it was not. -/
def handle_death (s : TracerState) (pid : Int) (t : Tracee)
    (expected stillNeeded : Bool) : Except BadTraceError TracerState :=
  if stillNeeded then
    let t1 : Tracee :=
      { t with state := Tracee.State.DEAD, signal := 0, blockingCall := none }
    Except.ok { s with tracees := updateT s.tracees pid t1 }
  else if expected then
    Except.ok { s with tracees := eraseT s.tracees pid }
  else
    Except.ok { (mark_orphaned s t) with tracees := eraseT s.tracees pid }

/-- Modelled from the spec: `Tracer::handle_wait_notification` (body in the
missing `tracer.cpp`): look the pid up — a notification for a pid with no
registry entry is a `BadTraceError`; stop notifications expect a RUNNING
tracee, a death can hit a RUNNING or STOPPED one (§4.1); then dispatch to the
per-event handler. -/
def handle_wait_notification (s : TracerState) (e : Event) :
    Except BadTraceError TracerState :=
  match lookupT s.tracees e.pid with
  | none => Except.error { pid := e.pid, message := "notification for unknown pid" }
  | some t =>
      match e with
      | Event.death pid expected stillNeeded =>
          if t.state = Tracee.State.DEAD then
            Except.error { pid := pid, message := "death reported for a dead tracee" }
          else handle_death s pid t expected stillNeeded
      | Event.syscallEntry pid sysno blocking outcome =>
          if t.state = Tracee.State.RUNNING then
            handle_syscall_entry s pid t sysno blocking outcome
          else Except.error { pid := pid, message := "stop in unexpected tracee state" }
      | Event.syscallExit pid outcome reaped =>
          if t.state = Tracee.State.RUNNING then
            handle_syscall_exit s pid t outcome reaped
          else Except.error { pid := pid, message := "stop in unexpected tracee state" }
      | Event.fork pid child =>
          if t.state = Tracee.State.RUNNING then handle_fork s pid t child
          else Except.error { pid := pid, message := "stop in unexpected tracee state" }
      | Event.failedFork pid =>
          if t.state = Tracee.State.RUNNING then handle_failed_fork s pid t
          else Except.error { pid := pid, message := "stop in unexpected tracee state" }
      | Event.exec pid =>
          if t.state = Tracee.State.RUNNING then handle_exec s pid t
          else Except.error { pid := pid, message := "stop in unexpected tracee state" }
      | Event.signalStop pid sig suppress =>
          if t.state = Tracee.State.RUNNING then handle_signal_stop s pid t sig suppress
          else Except.error { pid := pid, message := "stop in unexpected tracee state" }

/-- Process a batch of wait notifications in the order the kernel delivered
them. -/
def processEvents : TracerState → List Event → Except BadTraceError TracerState
  | s, [] => Except.ok s
  | s, e :: rest =>
      match handle_wait_notification s e with
      | Except.error err => Except.error err
      | Except.ok s1 => processEvents s1 rest

/-- Modelled from the spec: handling of one queued orphan pid inside
`collect_orphans` (§4.3): a live entry gets its subtree marked orphaned (the
tracee's own state untouched); with no live entry, a pid in the recycled-PID
record is stale and discarded with a diagnostic; otherwise it is a
`BadTraceError`. -/
def handleOrphan (s : TracerState) (p : Int) : Except BadTraceError TracerState :=
  match lookupT s.tracees p with
  | some t =>
      if t.state = Tracee.State.DEAD then
        if containsPid s.recycledPIDs p then Except.ok s
        else Except.error { pid := p, message := "orphan notification for a dead tracee" }
      else Except.ok (mark_orphaned s t)
  | none =>
      if containsPid s.recycledPIDs p then Except.ok s
      else Except.error { pid := p, message := "orphan notification for unknown pid" }

/-- Modelled from the spec: `Tracer::collect_orphans` (body in the missing
`tracer.cpp`): drain the queued orphan pids strictly in FIFO order; the second
component returns the pids in the order they were handled. -/
def collect_orphans (s : TracerState) :
    List Int → Except BadTraceError (TracerState × List Int)
  | [] => Except.ok (s, [])
  | p :: rest =>
      match handleOrphan s p with
      | Except.error err => Except.error err
      | Except.ok s1 =>
          match collect_orphans s1 rest with
          | Except.error err => Except.error err
          | Except.ok (s2, log) => Except.ok (s2, p :: log)

/-- Resuming a stopped tracee: STOPPED → RUNNING, delivering (and clearing)
any pending signal (§4.1). -/
def resumeTracee (t : Tracee) : Tracee :=
  { t with state := Tracee.State.RUNNING, signal := 0 }

/-- Resume every tracee currently STOPPED (§4.4 step 1). -/
def resumeAll (m : List (Int × Tracee)) : List (Int × Tracee) :=
  m.map (fun pt =>
    if pt.2.state = Tracee.State.STOPPED then (pt.1, resumeTracee pt.2) else pt)

/-- `Tracer::all_tracees_dead`: no non-DEAD entry remains. -/
def all_tracees_dead (m : List (Int × Tracee)) : Bool :=
  m.all (fun pt => decide (pt.2.state = Tracee.State.DEAD))

/-- Modelled from the spec: `Tracer::step` (body in the missing `tracer.cpp`),
§4.4: (1) resume every stopped tracee; (2) if no tracees remain, return
`false` immediately, else block for notifications (the batch delivered by the
kernel is the `events` argument); (3) dispatch each notification in order;
(4) drain the orphan queue; (5) return whether any non-DEAD entry remains. -/
def step (s : TracerState) (events : List Event) :
    Except BadTraceError (TracerState × Bool) :=
  if all_tracees_dead s.tracees then Except.ok (s, false)
  else
    match processEvents { s with tracees := resumeAll s.tracees } events with
    | Except.error err => Except.error err
    | Except.ok s1 =>
        match collect_orphans { s1 with orphans := [] } s1.orphans with
        | Except.error err => Except.error err
        | Except.ok (s2, _) => Except.ok (s2, !all_tracees_dead s2.tracees)

/-- Modelled from the spec: `Tracer::notify_orphan` (body in the missing
`tracer.cpp`): merely enqueues the pid at the back of the orphan queue; never
raises — all interpretation is deferred to `step()`. -/
def notify_orphan (s : TracerState) (pid : Int) : TracerState :=
  { s with orphans := s.orphans ++ [pid] }

/-- Modelled from the spec: `Tracer::nuke` (body in the missing `tracer.cpp`):
requests that every tracked tracee be forcibly terminated. The kill requests
are outward-facing (second component, one per tracked pid); the tracer's own
state is untouched — reaping still happens through the normal `step()` path. -/
def nuke (s : TracerState) : TracerState × List Int :=
  (s, s.tracees.map (fun pt => pt.1))

/-! ### Concrete fixtures, used to instantiate theorems at concrete inputs -/

/-- A running tracee with pid 1 attached to Process node 0. -/
def traceeR : Tracee :=
  { pid := 1, state := Tracee.State.RUNNING, syscall := SYSCALL_NONE, signal := 0,
    process := some 0, blockingCall := none }

/-- The same tracee with a blocking wait call (syscall 61) outstanding. -/
def traceeRB : Tracee :=
  { traceeR with syscall := 61, blockingCall := some { sysno := 61 } }

/-- A dead tracee with pid 5 and no pending blocking call. -/
def traceeD : Tracee :=
  { pid := 5, state := Tracee.State.DEAD, syscall := SYSCALL_NONE, signal := 0,
    process := some 0, blockingCall := none }

/-- The empty tracer state. -/
def state0 : TracerState :=
  { tracees := [], orphans := [], leaders := [], recycledPIDs := [],
    processNodes := [0], orphanedNodes := [], failedForks := [], nextNode := 1 }

/-- One running tracee. -/
def stateR : TracerState := { state0 with tracees := [(1, traceeR)] }

/-- One running tracee with a blocking call outstanding. -/
def stateRB : TracerState := { state0 with tracees := [(1, traceeRB)] }

/-- One dead tracee. -/
def stateD : TracerState := { state0 with tracees := [(5, traceeD)] }

/-- One running tracee plus two queued orphan pids, both recycled. -/
def stateQ : TracerState := { stateR with orphans := [7, 8], recycledPIDs := [7, 8] }

/-- The state after `stateR`'s tracee forks a child with pid 2. -/
def forkResult : TracerState :=
  { tracees := [(1, { traceeR with state := Tracee.State.STOPPED }), (2, Tracee.make 2 1)],
    orphans := [], leaders := [], recycledPIDs := [],
    processNodes := [0, 1], orphanedNodes := [], failedForks := [], nextNode := 2 }

/-- The state after `stateR`'s tracee dies an expected, fully-processed death. -/
def deathResult : TracerState := { stateR with tracees := [] }

/-! ### Registry lemmas -/

theorem lookupT_updateT_ne (m : List (Int × Tracee)) (p q : Int) (t : Tracee)
    (h : q ≠ p) : lookupT (updateT m p t) q = lookupT m q := by
  induction m with
  | nil => rfl
  | cons x rest ih =>
      obtain ⟨a, b⟩ := x
      by_cases hp : a = p
      · subst hp
        simp only [updateT, if_pos rfl, lookupT]
        rw [if_neg (fun hh => h hh.symm), if_neg (fun hh => h hh.symm)]
        exact ih
      · simp only [updateT, if_neg hp, lookupT]
        by_cases hq : a = q
        · simp [hq]
        · simp only [if_neg hq]
          exact ih

theorem lookupT_updateT_self (m : List (Int × Tracee)) (p : Int) (t0 t : Tracee)
    (h : lookupT m p = some t0) : lookupT (updateT m p t) p = some t := by
  induction m with
  | nil => simp [lookupT] at h
  | cons x rest ih =>
      obtain ⟨a, b⟩ := x
      by_cases hp : a = p
      · subst hp
        simp [updateT, lookupT]
      · simp only [lookupT, if_neg hp] at h
        simp only [updateT, if_neg hp, lookupT, if_neg hp]
        exact ih h

theorem lookupT_eraseT_self (m : List (Int × Tracee)) (p : Int) :
    lookupT (eraseT m p) p = none := by
  induction m with
  | nil => rfl
  | cons x rest ih =>
      obtain ⟨a, b⟩ := x
      by_cases hp : a = p
      · simp only [eraseT, if_pos hp]
        exact ih
      · simp only [eraseT, if_neg hp, lookupT, if_neg hp]
        exact ih

theorem lookupT_eraseT_ne (m : List (Int × Tracee)) (p q : Int)
    (h : q ≠ p) : lookupT (eraseT m p) q = lookupT m q := by
  induction m with
  | nil => rfl
  | cons x rest ih =>
      obtain ⟨a, b⟩ := x
      by_cases hp : a = p
      · subst hp
        rw [eraseT, if_pos rfl]
        simp only [lookupT]
        rw [if_neg (fun hh => h hh.symm)]
        exact ih
      · simp only [eraseT, if_neg hp, lookupT]
        by_cases hq : a = q
        · simp [hq]
        · simp only [if_neg hq]
          exact ih

theorem lookupT_append_self (m : List (Int × Tracee)) (p : Int) (t : Tracee)
    (h : lookupT m p = none) : lookupT (m ++ [(p, t)]) p = some t := by
  induction m with
  | nil => simp [lookupT]
  | cons x rest ih =>
      obtain ⟨a, b⟩ := x
      by_cases hp : a = p
      · simp [lookupT, hp] at h
      · simp only [lookupT, if_neg hp] at h
        simp only [List.cons_append, lookupT, if_neg hp]
        exact ih h

theorem lookupT_none_ne (m : List (Int × Tracee)) (p q : Int) (t : Tracee)
    (hs : lookupT m p = some t) (hn : lookupT m q = none) : q ≠ p := by
  intro h
  subst h
  rw [hs] at hn
  exact Option.noConfusion hn

theorem length_updateT (m : List (Int × Tracee)) (p : Int) (t : Tracee) :
    (updateT m p t).length = m.length := by
  induction m with
  | nil => rfl
  | cons x rest ih =>
      obtain ⟨a, b⟩ := x
      by_cases hp : a = p
      · simp [updateT, hp, ih]
      · simp [updateT, hp, ih]

theorem mem_updateT (m : List (Int × Tracee)) (p : Int) (t : Tracee)
    (pt : Int × Tracee) (h : pt ∈ updateT m p t) : pt = (p, t) ∨ pt ∈ m := by
  induction m with
  | nil => simp [updateT] at h
  | cons x rest ih =>
      obtain ⟨a, b⟩ := x
      by_cases hp : a = p
      · rw [updateT, if_pos hp] at h
        rcases List.mem_cons.mp h with heq | hin
        · exact Or.inl heq
        · rcases ih hin with heq | hin2
          · exact Or.inl heq
          · exact Or.inr (List.mem_cons_of_mem _ hin2)
      · rw [updateT, if_neg hp] at h
        rcases List.mem_cons.mp h with heq | hin
        · exact Or.inr (heq ▸ List.mem_cons_self _ _)
        · rcases ih hin with heq | hin2
          · exact Or.inl heq
          · exact Or.inr (List.mem_cons_of_mem _ hin2)

theorem mem_eraseT (m : List (Int × Tracee)) (p : Int)
    (pt : Int × Tracee) (h : pt ∈ eraseT m p) : pt ∈ m := by
  induction m with
  | nil => simp [eraseT] at h
  | cons x rest ih =>
      obtain ⟨a, b⟩ := x
      by_cases hp : a = p
      · rw [eraseT, if_pos hp] at h
        exact List.mem_cons_of_mem _ (ih h)
      · rw [eraseT, if_neg hp] at h
        rcases List.mem_cons.mp h with heq | hin
        · exact heq ▸ List.mem_cons_self _ _
        · exact List.mem_cons_of_mem _ (ih hin)

theorem all_tracees_dead_iff (m : List (Int × Tracee)) :
    all_tracees_dead m = true ↔ ∀ pt ∈ m, pt.2.state = Tracee.State.DEAD := by
  simp [all_tracees_dead, List.all_eq_true]

/-! ### The DEAD-tracee invariant (spec §3): a DEAD tracee has no pending
blocking call. -/

/-- Every DEAD entry of the registry has no pending `blockingCall`. -/
def DeadNoCall (m : List (Int × Tracee)) : Prop :=
  ∀ pt ∈ m, pt.2.state = Tracee.State.DEAD → pt.2.blockingCall = none

theorem DeadNoCall_updateT (m : List (Int × Tracee)) (p : Int) (t : Tracee)
    (h : DeadNoCall m) (ht : t.state = Tracee.State.DEAD → t.blockingCall = none) :
    DeadNoCall (updateT m p t) := by
  intro pt hmem hdead
  rcases mem_updateT m p t pt hmem with heq | hin
  · subst heq
    exact ht hdead
  · exact h pt hin hdead

theorem DeadNoCall_eraseT (m : List (Int × Tracee)) (p : Int)
    (h : DeadNoCall m) : DeadNoCall (eraseT m p) := by
  intro pt hmem hdead
  exact h pt (mem_eraseT m p pt hmem) hdead

theorem DeadNoCall_append_make (m : List (Int × Tracee)) (p : Int) (n : Nat)
    (h : DeadNoCall m) : DeadNoCall (m ++ [(p, Tracee.make p n)]) := by
  intro pt hmem hdead
  rcases List.mem_append.mp hmem with hin | hin
  · exact h pt hin hdead
  · rw [List.mem_singleton.mp hin] at hdead
    simp [Tracee.make] at hdead

theorem DeadNoCall_resumeAll (m : List (Int × Tracee))
    (h : DeadNoCall m) : DeadNoCall (resumeAll m) := by
  intro pt hmem hdead
  simp only [resumeAll, List.mem_map] at hmem
  obtain ⟨x, hx, heq⟩ := hmem
  by_cases hs : x.2.state = Tracee.State.STOPPED
  · rw [if_pos hs] at heq
    rw [← heq] at hdead
    simp [resumeTracee] at hdead
  · rw [if_neg hs] at heq
    exact h pt (heq ▸ hx) hdead

theorem mark_orphaned_tracees (s : TracerState) (t : Tracee) :
    (mark_orphaned s t).tracees = s.tracees := by
  unfold mark_orphaned
  split <;> rfl

theorem DeadNoCall_reapIfDead (m : List (Int × Tracee)) (reaped : Option Int)
    (h : DeadNoCall m) : DeadNoCall (reapIfDead m reaped) := by
  unfold reapIfDead
  split
  · exact h
  · split
    · split
      · exact DeadNoCall_eraseT _ _ h
      · exact h
    · exact h

theorem handle_syscall_entry_inv (s : TracerState) (pid : Int) (t : Tracee)
    (sysno : Int) (blocking : Bool) (outcome : CallOutcome) (s' : TracerState)
    (h : DeadNoCall s.tracees)
    (hok : handle_syscall_entry s pid t sysno blocking outcome = Except.ok s') :
    DeadNoCall s'.tracees := by
  unfold handle_syscall_entry at hok
  split at hok
  · split at hok
    · exact absurd hok (by simp)
    · split at hok
      · exact absurd hok (by simp)
      · injection hok with h2
        subst h2
        exact DeadNoCall_eraseT _ _ h
      · injection hok with h2
        subst h2
        exact DeadNoCall_updateT _ _ _ h (fun hd => Tracee.State.noConfusion hd)
  · injection hok with h2
    subst h2
    exact DeadNoCall_updateT _ _ _ h (fun hd => Tracee.State.noConfusion hd)

theorem handle_syscall_exit_inv (s : TracerState) (pid : Int) (t : Tracee)
    (outcome : CallOutcome) (reaped : Option Int) (s' : TracerState)
    (h : DeadNoCall s.tracees)
    (hok : handle_syscall_exit s pid t outcome reaped = Except.ok s') :
    DeadNoCall s'.tracees := by
  unfold handle_syscall_exit at hok
  split at hok
  · split at hok
    · exact absurd hok (by simp)
    · injection hok with h2
      subst h2
      exact DeadNoCall_eraseT _ _ h
    · injection hok with h2
      subst h2
      exact DeadNoCall_updateT _ _ _ (DeadNoCall_reapIfDead _ _ h)
        (fun hd => Tracee.State.noConfusion hd)
  · split at hok
    · exact absurd hok (by simp)
    · injection hok with h2
      subst h2
      exact DeadNoCall_updateT _ _ _ h (fun hd => Tracee.State.noConfusion hd)

theorem handle_fork_inv (s : TracerState) (parent : Int) (t : Tracee)
    (child : Int) (s' : TracerState)
    (h : DeadNoCall s.tracees)
    (hok : handle_fork s parent t child = Except.ok s') :
    DeadNoCall s'.tracees := by
  unfold handle_fork at hok
  split at hok
  · split at hok
    · injection hok with h2
      subst h2
      exact DeadNoCall_append_make _ _ _
        (DeadNoCall_eraseT _ _
          (DeadNoCall_updateT _ _ _ h (fun hd => Tracee.State.noConfusion hd)))
    · exact absurd hok (by simp)
  · injection hok with h2
    subst h2
    exact DeadNoCall_append_make _ _ _
      (DeadNoCall_updateT _ _ _ h (fun hd => Tracee.State.noConfusion hd))

theorem handle_failed_fork_inv (s : TracerState) (parent : Int) (t : Tracee)
    (s' : TracerState) (h : DeadNoCall s.tracees)
    (hok : handle_failed_fork s parent t = Except.ok s') :
    DeadNoCall s'.tracees := by
  unfold handle_failed_fork at hok
  injection hok with h2
  subst h2
  exact DeadNoCall_updateT _ _ _ h (fun hd => Tracee.State.noConfusion hd)

theorem handle_exec_inv (s : TracerState) (pid : Int) (t : Tracee)
    (s' : TracerState) (h : DeadNoCall s.tracees)
    (hok : handle_exec s pid t = Except.ok s') :
    DeadNoCall s'.tracees := by
  unfold handle_exec at hok
  injection hok with h2
  subst h2
  exact DeadNoCall_updateT _ _ _ h (fun hd => Tracee.State.noConfusion hd)

theorem handle_signal_stop_inv (s : TracerState) (pid : Int) (t : Tracee)
    (sig : Int) (suppress : Bool) (s' : TracerState) (h : DeadNoCall s.tracees)
    (hok : handle_signal_stop s pid t sig suppress = Except.ok s') :
    DeadNoCall s'.tracees := by
  unfold handle_signal_stop at hok
  injection hok with h2
  subst h2
  exact DeadNoCall_updateT _ _ _ h (fun hd => Tracee.State.noConfusion hd)

theorem handle_death_inv (s : TracerState) (pid : Int) (t : Tracee)
    (expected stillNeeded : Bool) (s' : TracerState) (h : DeadNoCall s.tracees)
    (hok : handle_death s pid t expected stillNeeded = Except.ok s') :
    DeadNoCall s'.tracees := by
  unfold handle_death at hok
  split at hok
  · injection hok with h2
    subst h2
    exact DeadNoCall_updateT _ _ _ h (fun _ => rfl)
  · split at hok
    · injection hok with h2
      subst h2
      exact DeadNoCall_eraseT _ _ h
    · injection hok with h2
      subst h2
      exact DeadNoCall_eraseT _ _ h

theorem handle_wait_notification_inv (s : TracerState) (e : Event)
    (s' : TracerState) (h : DeadNoCall s.tracees)
    (hok : handle_wait_notification s e = Except.ok s') :
    DeadNoCall s'.tracees := by
  unfold handle_wait_notification at hok
  split at hok
  · exact absurd hok (by simp)
  · split at hok
    · split at hok
      · exact absurd hok (by simp)
      · exact handle_death_inv _ _ _ _ _ _ h hok
    · split at hok
      · exact handle_syscall_entry_inv _ _ _ _ _ _ _ h hok
      · exact absurd hok (by simp)
    · split at hok
      · exact handle_syscall_exit_inv _ _ _ _ _ _ h hok
      · exact absurd hok (by simp)
    · split at hok
      · exact handle_fork_inv _ _ _ _ _ h hok
      · exact absurd hok (by simp)
    · split at hok
      · exact handle_failed_fork_inv _ _ _ _ h hok
      · exact absurd hok (by simp)
    · split at hok
      · exact handle_exec_inv _ _ _ _ h hok
      · exact absurd hok (by simp)
    · split at hok
      · exact handle_signal_stop_inv _ _ _ _ _ _ h hok
      · exact absurd hok (by simp)

theorem processEvents_inv (events : List Event) (s : TracerState)
    (s' : TracerState) (h : DeadNoCall s.tracees)
    (hok : processEvents s events = Except.ok s') :
    DeadNoCall s'.tracees := by
  induction events generalizing s with
  | nil =>
      unfold processEvents at hok
      injection hok with h2
      subst h2
      exact h
  | cons e rest ih =>
      unfold processEvents at hok
      split at hok
      · exact absurd hok (by simp)
      · rename_i s1 heq
        exact ih s1 (handle_wait_notification_inv _ _ _ h heq) hok

theorem handleOrphan_ok_tracees (s : TracerState) (p : Int) (s1 : TracerState)
    (hok : handleOrphan s p = Except.ok s1) : s1.tracees = s.tracees := by
  unfold handleOrphan at hok
  split at hok
  · split at hok
    · split at hok
      · injection hok with h2
        subst h2
        rfl
      · exact absurd hok (by simp)
    · injection hok with h2
      subst h2
      exact mark_orphaned_tracees _ _
  · split at hok
    · injection hok with h2
      subst h2
      rfl
    · exact absurd hok (by simp)

theorem collect_orphans_ok (q : List Int) :
    ∀ (s s' : TracerState) (log : List Int),
      collect_orphans s q = Except.ok (s', log) →
      s'.tracees = s.tracees ∧ log = q := by
  induction q with
  | nil =>
      intro s s' log hok
      unfold collect_orphans at hok
      injection hok with h2
      rw [Prod.mk.injEq] at h2
      obtain ⟨h3, h4⟩ := h2
      subst h3
      subst h4
      exact ⟨rfl, rfl⟩
  | cons p rest ih =>
      intro s s' log hok
      unfold collect_orphans at hok
      split at hok
      · exact absurd hok (by simp)
      · rename_i s1 heq
        split at hok
        · exact absurd hok (by simp)
        · rename_i s2 log2 heq2
          injection hok with h2
          rw [Prod.mk.injEq] at h2
          obtain ⟨h3, h4⟩ := h2
          subst h3
          subst h4
          obtain ⟨ht, hl⟩ := ih s1 _ _ heq2
          exact ⟨ht.trans (handleOrphan_ok_tracees s p s1 heq), by rw [hl]⟩

/-! ### Claim theorems -/

/-- C10: a default-constructed `Tracee` (the constructor `unordered_map`'s
`operator[]` requires) has pid −1, state RUNNING, syscall `SYSCALL_NONE`,
signal 0 and no `process` or `blockingCall` attached; so, contrary to the rule
that every registered tracee begins STOPPED, an `operator[]` lookup of a
missing pid silently materialises a RUNNING tracee with an invalid pid. -/
theorem default_tracee_running_via_index :
    Tracee.default.pid = -1 ∧
    Tracee.default.state = Tracee.State.RUNNING ∧
    Tracee.default.syscall = SYSCALL_NONE ∧
    Tracee.default.signal = 0 ∧
    Tracee.default.process = none ∧
    Tracee.default.blockingCall = none ∧
    Tracee.default.state ≠ Tracee.State.STOPPED ∧
    (∀ (m : List (Int × Tracee)) (p : Int), lookupT m p = none →
      (registryIndex m p).1 = Tracee.default ∧
      lookupT (registryIndex m p).2 p = some Tracee.default) := by
  refine ⟨rfl, rfl, rfl, rfl, rfl, rfl, fun h => Tracee.State.noConfusion h, ?_⟩
  intro m p h
  unfold registryIndex
  rw [h]
  exact ⟨rfl, lookupT_append_self m p Tracee.default h⟩

/-- Witness for C10: indexing the empty registry at pid 7 materialises the
default (RUNNING, pid −1) tracee and inserts it. -/
theorem default_tracee_running_via_index_witness :
    (registryIndex [] 7).1 = Tracee.default ∧
    lookupT (registryIndex [] 7).2 7 = some Tracee.default :=
  default_tracee_running_via_index.2.2.2.2.2.2.2 [] 7 rfl

/-- C9: `nuke()` is idempotent — applied to its own resulting state it yields
the same result as one application; its only effect is the outward request to
terminate every tracked tracee (one kill request per registered pid), and it
never removes (or otherwise changes) registry entries: reaping happens only
through later `step()` calls. -/
theorem nuke_idempotent_requests_only :
    ∀ s : TracerState,
      nuke (nuke s).1 = nuke s ∧
      (nuke s).1 = s ∧
      (nuke s).2 = s.tracees.map (fun pt => pt.1) :=
  fun _ => ⟨rfl, rfl, rfl⟩

/-- C6: `notify_orphan(pid)`'s only effect is to append the pid to the orphan
queue: it is a total function (it cannot raise) and leaves the registry, the
leaders, the recycled-PID record and all Process-collaborator state untouched
— all interpretation is deferred to a later `step()`. (The never-blocks /
callable-from-another-thread part of the claim is the C++ locking contract;
in this model it is reflected by `notify_orphan` being this pure total
enqueue.) -/
theorem notify_orphan_enqueues_only :
    ∀ (s : TracerState) (pid : Int),
      (notify_orphan s pid).orphans = s.orphans ++ [pid] ∧
      (notify_orphan s pid).tracees = s.tracees ∧
      (notify_orphan s pid).leaders = s.leaders ∧
      (notify_orphan s pid).recycledPIDs = s.recycledPIDs ∧
      (notify_orphan s pid).processNodes = s.processNodes ∧
      (notify_orphan s pid).orphanedNodes = s.orphanedNodes ∧
      (notify_orphan s pid).failedForks = s.failedForks ∧
      (notify_orphan s pid).nextNode = s.nextNode :=
  fun _ _ => ⟨rfl, rfl, rfl, rfl, rfl, rfl, rfl, rfl⟩

/-- C4: `BlockingCall::prepare` and `finalise` return `false` precisely when
the tracee died during the operation (an expected outcome, not an exception;
the caller then reaps the tracee), while any other unexpected condition is
signalled by throwing (`Except.error`). -/
theorem blocking_call_false_iff_died :
    ∀ (o : CallOutcome) (pid : Int),
      (BlockingCall.prepare o pid = Except.ok false ↔ o = CallOutcome.traceeDied) ∧
      (BlockingCall.finalise o pid = Except.ok false ↔ o = CallOutcome.traceeDied) ∧
      (∀ m : String, BlockingCall.prepare (CallOutcome.failed m) pid =
        Except.error { pid := pid, message := m }) ∧
      (∀ m : String, BlockingCall.finalise (CallOutcome.failed m) pid =
        Except.error { pid := pid, message := m }) := by
  intro o pid
  refine ⟨?_, ?_, fun m => rfl, fun m => rfl⟩ <;>
    cases o <;> simp [BlockingCall.prepare, BlockingCall.finalise]

/-- C5: an orphan notification whose pid has no live (non-DEAD) registry entry
is discarded without error and with the whole tracer state (every tracee
included) left unchanged when the pid is in the recycled-PID record; when the
pid is in neither the registry nor the recycled-PID record, processing it
raises `BadTraceError`. -/
theorem orphan_recycled_or_error :
    (∀ (s : TracerState) (p : Int),
        (∀ t, lookupT s.tracees p = some t → t.state = Tracee.State.DEAD) →
        containsPid s.recycledPIDs p = true →
        handleOrphan s p = Except.ok s) ∧
    (∀ (s : TracerState) (p : Int),
        lookupT s.tracees p = none →
        containsPid s.recycledPIDs p = false →
        handleOrphan s p =
          Except.error { pid := p, message := "orphan notification for unknown pid" }) := by
  constructor
  · intro s p hdead hrec
    unfold handleOrphan
    cases hlu : lookupT s.tracees p with
    | none =>
        rw [hrec]
        rfl
    | some t =>
        simp only [hdead t hlu, hrec]
        rfl
  · intro s p hlu hrec
    unfold handleOrphan
    rw [hlu, hrec]
    rfl

/-- Witness for C5: pid 7 has no entry in `stateQ`'s registry but is in its
recycled-PID record, so the orphan notification is discarded and the state is
left unchanged. -/
theorem orphan_recycled_or_error_witness :
    handleOrphan stateQ 7 = Except.ok stateQ :=
  orphan_recycled_or_error.1 stateQ 7
    (fun t ht => by simp [stateQ, stateR, state0, lookupT] at ht) rfl

/-- C1: a successful `step()` returns `false` exactly when the registry
retains no live (non-DEAD) tracee entry: the flag is `false` iff every entry
of the resulting registry is DEAD. -/
theorem step_false_iff_all_dead :
    ∀ (s : TracerState) (events : List Event) (s' : TracerState) (b : Bool),
      step s events = Except.ok (s', b) →
      (b = false ↔ ∀ pt ∈ s'.tracees, pt.2.state = Tracee.State.DEAD) := by
  intro s events s' b hok
  unfold step at hok
  split at hok
  · rename_i hdead
    injection hok with h2
    rw [Prod.mk.injEq] at h2
    obtain ⟨h3, h4⟩ := h2
    rw [← h3, ← h4]
    exact iff_of_true rfl ((all_tracees_dead_iff s.tracees).mp hdead)
  · split at hok
    · exact absurd hok (by simp)
    · rename_i s1 heq
      split at hok
      · exact absurd hok (by simp)
      · rename_i s2 log heq2
        injection hok with h2
        rw [Prod.mk.injEq] at h2
        obtain ⟨h3, h4⟩ := h2
        rw [← h3, ← h4]
        cases hx : all_tracees_dead s2.tracees with
        | true =>
            simp only [hx, Bool.not_true]
            exact iff_of_true trivial ((all_tracees_dead_iff s2.tracees).mp hx)
        | false =>
            simp only [hx, Bool.not_false]
            refine iff_of_false (by simp) ?_
            intro hall
            rw [(all_tracees_dead_iff s2.tracees).mpr hall] at hx
            exact Bool.noConfusion hx

/-- Witness for C1: on a registry holding the single DEAD tracee `traceeD`,
`step` returns `false`, and indeed that remaining entry is DEAD. -/
theorem step_false_iff_all_dead_witness :
    traceeD.state = Tracee.State.DEAD :=
  (step_false_iff_all_dead stateD [] stateD false rfl).mp rfl (5, traceeD)
    (List.mem_singleton.mpr rfl)

/-- C7: queued orphan notifications are consumed in exactly enqueue (FIFO)
order — the pids `collect_orphans` handles, in handling order, are the queue
itself — and within a `step()` that processes events, the whole orphan drain
happens after all wait-event processing of that call: the drain starts from
the post-event state and the step's result is the drain's outcome. -/
theorem orphans_fifo_after_events :
    (∀ (s s' : TracerState) (q log : List Int),
        collect_orphans s q = Except.ok (s', log) → log = q) ∧
    (∀ (s : TracerState) (events : List Event) (out : TracerState × Bool),
        all_tracees_dead s.tracees = false →
        step s events = Except.ok out →
        ∃ (s1 s2 : TracerState) (log : List Int),
          processEvents { s with tracees := resumeAll s.tracees } events = Except.ok s1 ∧
          collect_orphans { s1 with orphans := [] } s1.orphans = Except.ok (s2, log) ∧
          log = s1.orphans ∧
          out = (s2, !all_tracees_dead s2.tracees)) := by
  constructor
  · intro s s' q log hok
    exact (collect_orphans_ok q s s' log hok).2
  · intro s events out hlive hok
    unfold step at hok
    rw [if_neg (by simp [hlive])] at hok
    split at hok
    · exact absurd hok (by simp)
    · rename_i s1 heq
      split at hok
      · exact absurd hok (by simp)
      · rename_i s2 log heq2
        injection hok with h2
        exact ⟨s1, s2, log, heq, heq2,
          (collect_orphans_ok s1.orphans _ s2 log heq2).2, h2.symm⟩

/-- Witness for C7: draining the concrete queue [7, 8] over `stateQ`'s
registry handles the pids in exactly that enqueue order. -/
theorem orphans_fifo_after_events_witness :
    ([7, 8] : List Int) = [7, 8] :=
  orphans_fifo_after_events.1 { stateQ with orphans := [] }
    { stateQ with orphans := [] } [7, 8] [7, 8] rfl

/-- C3: at most one `BlockingCall` is outstanding per tracee at any time —
a syscall-entry for a tracked blocking syscall succeeds only when the tracee
has no outstanding call, and such an entry while one is already outstanding
raises `BadTraceError` for that pid. -/
theorem one_blocking_call_per_tracee :
    (∀ (s : TracerState) (pid sysno : Int) (outcome : CallOutcome)
        (t : Tracee) (bc : BlockingCall),
        lookupT s.tracees pid = some t →
        t.state = Tracee.State.RUNNING →
        t.blockingCall = some bc →
        handle_wait_notification s (Event.syscallEntry pid sysno true outcome) =
          Except.error { pid := pid,
                         message := "syscall-entry while a blocking call is already outstanding" }) ∧
    (∀ (s : TracerState) (pid sysno : Int) (outcome : CallOutcome)
        (t : Tracee) (s' : TracerState),
        lookupT s.tracees pid = some t →
        handle_wait_notification s (Event.syscallEntry pid sysno true outcome) =
          Except.ok s' →
        t.blockingCall = none) := by
  constructor
  · intro s pid sysno outcome t bc hlu hrun hbc
    simp [handle_wait_notification, Event.pid, hlu, hrun, handle_syscall_entry, hbc]
  · intro s pid sysno outcome t s' hlu hok
    cases hbc : t.blockingCall with
    | none => rfl
    | some bc =>
        by_cases hrun : t.state = Tracee.State.RUNNING
        · simp [handle_wait_notification, Event.pid, hlu, hrun,
            handle_syscall_entry, hbc] at hok
        · simp [handle_wait_notification, Event.pid, hlu, hrun] at hok

/-- Witness for C3: a blocking syscall-entry for the tracee of `stateRB`,
which already has a wait call outstanding, is rejected. -/
theorem one_blocking_call_per_tracee_witness :
    handle_wait_notification stateRB (Event.syscallEntry 1 61 true CallOutcome.completed) =
      Except.error { pid := 1,
                     message := "syscall-entry while a blocking call is already outstanding" } :=
  one_blocking_call_per_tracee.1 stateRB 1 61 CallOutcome.completed traceeRB
    { sysno := 61 } rfl rfl rfl

/-- C2: each fork notification for a fresh child pid registers exactly one new
tracee — in the STOPPED state — and creates exactly one new Process subtree
node; a fork notification for a pid that still has a live (non-DEAD) registry
entry is a `BadTraceError`, so no pid is ever registered twice while an entry
for it is live. -/
theorem fork_registers_once :
    (∀ (s : TracerState) (parent child : Int) (pt : Tracee) (s' : TracerState),
        lookupT s.tracees parent = some pt →
        pt.state = Tracee.State.RUNNING →
        lookupT s.tracees child = none →
        handle_wait_notification s (Event.fork parent child) = Except.ok s' →
        lookupT s'.tracees child = some (Tracee.make child s.nextNode) ∧
        s'.tracees.length = s.tracees.length + 1 ∧
        s'.processNodes = s.processNodes ++ [s.nextNode] ∧
        s'.nextNode = s.nextNode + 1) ∧
    (∀ (s : TracerState) (parent child : Int) (pt ct : Tracee),
        lookupT s.tracees parent = some pt →
        pt.state = Tracee.State.RUNNING →
        lookupT s.tracees child = some ct →
        ct.state ≠ Tracee.State.DEAD →
        handle_wait_notification s (Event.fork parent child) =
          Except.error { pid := child,
                         message := "fork notification for a pid with a live entry" }) := by
  constructor
  · intro s parent child pt s' hlup hrun hchild hok
    have hne : child ≠ parent := lookupT_none_ne s.tracees parent child pt hlup hchild
    have htp : lookupT
        (updateT s.tracees parent { pt with state := Tracee.State.STOPPED }) child = none := by
      rw [lookupT_updateT_ne s.tracees parent child _ hne]
      exact hchild
    simp [handle_wait_notification, Event.pid, hlup, hrun, handle_fork, hchild,
      add_tracee] at hok
    subst hok
    refine ⟨?_, ?_, ?_, ?_⟩
    · exact lookupT_append_self _ child _ htp
    · simp [List.length_append, length_updateT]
    · rfl
    · rfl
  · intro s parent child pt ct hlup hrun hchild hlive
    simp [handle_wait_notification, Event.pid, hlup, hrun, handle_fork, hchild, hlive]

/-- Witness for C2: in `stateR` the running tracee 1 forks fresh pid 2: the
child is registered STOPPED on a fresh Process node, the registry grows by
one and exactly one node is created. -/
theorem fork_registers_once_witness :
    lookupT forkResult.tracees 2 = some (Tracee.make 2 stateR.nextNode) ∧
    forkResult.tracees.length = stateR.tracees.length + 1 ∧
    forkResult.processNodes = stateR.processNodes ++ [stateR.nextNode] ∧
    forkResult.nextNode = stateR.nextNode + 1 :=
  fork_registers_once.1 stateR 1 2 traceeR forkResult rfl rfl rfl rfl

/-- C8: invariant — a tracee whose state is DEAD has no pending
`blockingCall` (preserved by every successful `step()`), and a tracee entry
is retained only until its death is fully processed: a death notification
that no other component still needs removes the entry from the registry. -/
theorem dead_tracee_invariant :
    (∀ (s : TracerState) (events : List Event) (s' : TracerState) (b : Bool),
        DeadNoCall s.tracees →
        step s events = Except.ok (s', b) →
        DeadNoCall s'.tracees) ∧
    (∀ (s : TracerState) (pid : Int) (t : Tracee) (expected : Bool) (s' : TracerState),
        lookupT s.tracees pid = some t →
        handle_wait_notification s (Event.death pid expected false) = Except.ok s' →
        lookupT s'.tracees pid = none) := by
  constructor
  · intro s events s' b h hok
    unfold step at hok
    split at hok
    · injection hok with h2
      rw [Prod.mk.injEq] at h2
      rw [← h2.1]
      exact h
    · split at hok
      · exact absurd hok (by simp)
      · rename_i s1 heq
        split at hok
        · exact absurd hok (by simp)
        · rename_i s2 log heq2
          injection hok with h2
          rw [Prod.mk.injEq] at h2
          rw [← h2.1]
          have h0 : DeadNoCall (resumeAll s.tracees) := DeadNoCall_resumeAll _ h
          have h1 : DeadNoCall s1.tracees := processEvents_inv events _ s1 h0 heq
          have h2t := (collect_orphans_ok s1.orphans _ s2 log heq2).1
          rw [DeadNoCall] at h1 ⊢
          rw [h2t]
          exact h1
  · intro s pid t expected s' hlu hok
    by_cases hd : t.state = Tracee.State.DEAD
    · simp [handle_wait_notification, Event.pid, hlu, hd] at hok
    · cases expected with
      | true =>
          simp [handle_wait_notification, Event.pid, hlu, hd, handle_death] at hok
          subst hok
          exact lookupT_eraseT_self s.tracees pid
      | false =>
          simp [handle_wait_notification, Event.pid, hlu, hd, handle_death] at hok
          subst hok
          exact lookupT_eraseT_self s.tracees pid

/-- Witness for C8: the running tracee of `stateR` dies an expected death
that nothing still needs; its entry is gone afterwards. -/
theorem dead_tracee_invariant_witness :
    lookupT deathResult.tracees 1 = none :=
  dead_tracee_invariant.2 stateR 1 traceeR true deathResult rfl rfl

end Forktrace
